import Mathlib

/-!
# cpp-http-server: thread pool and accept-loop dispatch

A shallow embedding of `include/thread_pool.h`, `src/http_server.cpp` and
`src/main.cpp`.

* Exceptions are values: a function that can throw returns `Except`, or a pair
  of an optional exception and the state reached when it was thrown.
* Everything the operating system decides (the return values of `socket`,
  `setsockopt`, `bind`, `listen`, `accept`, `read`, the delivery of a signal,
  a `stop()` issued by another thread) is an input of the embedded function.
* Every call the program makes on a descriptor is appended to a trace, so that
  statements such as "closed exactly once" are statements about that trace.
-/

set_option autoImplicit false

/-! ## include/thread_pool.h -/

namespace ThreadPool

/-- Error conditions of `std::future_error` that invoking a packaged task can raise. -/
inductive FutureErrc where
  | promise_already_satisfied
  | no_state
  deriving DecidableEq, Repr

/-- The shared states of all `std::packaged_task` / `std::future` pairs, by address.
Each cell lists the outcomes stored into that shared state, oldest first: a cell is
ready as soon as it is non-empty, and the standard library refuses a second store. -/
abbrev Memory (ε α : Type) := List (List (Except ε α))

/-- A `std::packaged_task<return_type()>` held through a `std::shared_ptr`: the bound
callable `std::bind(f, args...)` and the address of its shared state. The callable
acts on an environment `ω` and either returns a value or throws. -/
structure PackagedTask (ω ε α : Type) where
  fn : ω → Except ε α × ω
  cell : Nat

/-- A `std::future<return_type>`: the address of the shared state it reads. -/
structure Future where
  cell : Nat
  deriving DecidableEq, Repr

/-- The data members of `class ThreadPool`: `workers_` by its size, `tasks_` as the
queue contents front first, `stop_`, and the number of `notify_one` calls made on
`condition_`. Each queued `std::function<void()>` is the lambda `[task]{ (*task)(); }`,
represented by the packaged task it captures. -/
structure State (ω ε α : Type) where
  workers_ : Nat
  tasks_ : List (PackagedTask ω ε α)
  stop_ : Bool
  notified : Nat

/-- What running a queued item produced: the exception that left the item, if any,
the shared states and the environment afterwards. -/
structure RunResult (ω ε α : Type) where
  raised : Option FutureErrc
  mem : Memory ε α
  env : ω

/-- The call `(*task)()` of `std::packaged_task::operator()`: runs the stored callable
and stores its value, or the exception it threw, into the shared state. A task whose
shared state is already satisfied throws `std::future_error` and stores nothing. -/
def PackagedTask.invoke {ω ε α : Type} (t : PackagedTask ω ε α) (mem : Memory ε α) (w : ω) :
    RunResult ω ε α :=
  match mem[t.cell]? with
  | none => { raised := some FutureErrc.no_state, mem := mem, env := w }
  | some (_ :: _) => { raised := some FutureErrc.promise_already_satisfied, mem := mem, env := w }
  | some [] =>
    let r := t.fn w
    { raised := none, mem := mem.set t.cell [r.1], env := r.2 }

/-- Running the queued lambda `[task]() { (*task)(); }` (thread_pool.h lines 48-49). -/
def runItem {ω ε α : Type} (item : PackagedTask ω ε α) (mem : Memory ε α) (w : ω) :
    RunResult ω ε α :=
  item.invoke mem w

/-- Reading a future without blocking: the outcome held by its shared state, if ready. -/
def Future.get {ε α : Type} (fut : Future) (mem : Memory ε α) : Option (Except ε α) :=
  match mem[fut.cell]? with
  | some (r :: _) => some r
  | _ => none

/-- Number of stores made into the shared state a future reads. -/
def Future.storeCount {ε α : Type} (fut : Future) (mem : Memory ε α) : Nat :=
  match mem[fut.cell]? with
  | some log => log.length
  | none => 0

/-- What a call of `enqueue` leaves behind: the exception thrown, if any, the shared
states, the pool, and the future handed to the caller when the call returns. -/
structure EnqueueResult (ω ε α : Type) where
  raised : Option String
  mem : Memory ε α
  pool : State ω ε α
  handle : Option Future

/-- Embedding of `ThreadPool::enqueue` (thread_pool.h lines 31-53). The packaged task
and its future are created first (lines 38-41); under the lock, a stopped pool throws
`std::runtime_error` (lines 45-46), which destroys both before anything was pushed;
otherwise the item is emplaced at the back of `tasks_` (line 48), one waiter is notified
(line 51) and the future is returned (line 52). -/
def enqueue {ω ε α : Type} (mem : Memory ε α) (s : State ω ε α) (f : ω → Except ε α × ω) :
    EnqueueResult ω ε α :=
  let task : PackagedTask ω ε α := { fn := f, cell := mem.length }
  let res : Future := { cell := task.cell }
  if s.stop_ then
    { raised := some "enqueue on stopped ThreadPool", mem := mem, pool := s, handle := none }
  else
    { raised := none,
      mem := mem ++ [[]],
      pool := { s with tasks_ := s.tasks_ ++ [task], notified := s.notified + 1 },
      handle := some res }

/-- Modelled from the spec: the constructor `ThreadPool::ThreadPool(size_t)`, declared in
thread_pool.h and defined in a translation unit that is not among the sources. The spec
says that the worker count must be at least 1, that a smaller count must be rejected and
not silently accepted, and that the pool is constructed with that many workers parked on
an empty queue and accepting work. -/
def create {ω ε α : Type} (num_threads : Nat) : Except String (State ω ε α) :=
  if num_threads < 1 then
    Except.error "workerCount must be >= 1"
  else
    Except.ok { workers_ := num_threads, tasks_ := [], stop_ := false, notified := 0 }

end ThreadPool

/-! ## src/http_server.cpp -/

/-- Calls made by the server, in program order, with the value each returned. -/
inductive Call where
  | socket (ret : Int)
  | setsockopt (fd : Int) (ret : Int)
  | bind (fd : Int) (port : Int) (ret : Int)
  | listen (fd : Int) (backlog : Int) (ret : Int)
  | accept (fd : Int) (ret : Int)
  | read (fd : Int) (count : Nat) (ret : Int)
  | write (fd : Int) (data : String)
  | close (fd : Int)
  | cout (text : String)
  | cerr (text : String)
  | enqueue (client_socket : Int)
  deriving DecidableEq, Repr

/-- What `read` on a client socket delivers: an error (return value -1) or the bytes
that arrived, none at end of stream. -/
inductive ReadOutcome where
  | error
  | data (bytes : List Char)
  deriving DecidableEq, Repr

/-- The network as seen by connection handlers: what a read on each descriptor
delivers, and the trace of calls made so far. -/
structure Net where
  incoming : Int → ReadOutcome
  trace : List Call

/-- Appends one call to the trace. -/
def Net.log (net : Net) (c : Call) : Net :=
  { net with trace := net.trace ++ [c] }

/-- The pool owned by the server: its work items act on the network, throw exceptions
identified by their text, and return nothing. -/
abbrev Pool := ThreadPool.State Net String Unit

/-- The data members of `class HttpServer` (http_server.h lines 25-28). -/
structure HttpServer where
  port_ : Int
  server_socket_ : Int
  running_ : Bool
  thread_pool_ : Pool

/-- A server object together with the shared states of its futures and the network. -/
structure World where
  srv : HttpServer
  mem : ThreadPool.Memory String Unit
  net : Net

/-- Width of `size_t` on the LP64 targets the POSIX socket code is written for. -/
def SIZE_BITS : Nat := 64

/-- Implicit conversion of an `int` argument to the `size_t` parameter of the pool
constructor: reduction modulo 2^64. -/
def toSizeT (x : Int) : Nat :=
  (x % (2 : Int) ^ SIZE_BITS).toNat

/-- The classification `isspace` of the classic locale: space, tab, line feed, vertical
tab, form feed, carriage return. -/
def isspace (c : Char) : Bool :=
  c.toNat = 32 || (9 ≤ c.toNat && c.toNat ≤ 13)

/-- State of a `std::istringstream`: the unread characters, or `none` once failbit is set. -/
abbrev IStream := Option (List Char)

/-- The extraction `iss >> word` on an input string stream: a failed stream leaves the
target untouched; otherwise leading white space is skipped, and either the input is
exhausted (the stream fails, the target is untouched) or the target receives the
characters up to the next white space. -/
def extract (target : String) (iss : IStream) : String × IStream :=
  match iss with
  | none => (target, none)
  | some rest =>
    match rest.dropWhile isspace with
    | [] => (target, none)
    | c :: cs =>
      (String.mk ((c :: cs).takeWhile (fun x => !isspace x)),
        some ((c :: cs).dropWhile (fun x => !isspace x)))

namespace HttpServer

/-- Embedding of `HttpServer::parseRequest` (http_server.cpp lines 160-166). -/
def parseRequest (request : String) : String :=
  let iss : IStream := some request.data
  let r1 := extract "" iss
  let r2 := extract "" r1.2
  let _r3 := extract "" r2.2
  r2.1

/-- Embedding of `HttpServer::buildResponse` (http_server.cpp lines 168-182). -/
def buildResponse (status_code : Int) (content_type : String) (body : String) : String :=
  let status_text := if status_code = 200 then "OK" else "Not Found"
  "HTTP/1.1 " ++ toString status_code ++ " " ++ status_text ++ "\r\n"
    ++ "Content-Type: " ++ content_type ++ "\r\n"
    ++ "Content-Length: " ++ toString body.utf8ByteSize ++ "\r\n"
    ++ "Connection: close\r\n"
    ++ "\r\n"
    ++ body

/-- The page served for the path "/" (http_server.cpp lines 101-114). -/
def homeBody : String :=
  "\n<!DOCTYPE html>\n<html>\n<head><title>C++ HTTP Server</title></head>\n<body>\n    <h1>Welcome to C++ HTTP Server!</h1>\n    <p>This is a multi-threaded HTTP server built with C++</p>\n    <ul>\n        <li><a href=\"/about\">About</a></li>\n        <li><a href=\"/stats\">Stats</a></li>\n    </ul>\n</body>\n</html>\n"

/-- The page served for the path "/about" (http_server.cpp lines 119-130). -/
def aboutBody : String :=
  "\n<!DOCTYPE html>\n<html>\n<head><title>About</title></head>\n<body>\n    <h1>About This Server</h1>\n    <p>Multi-threaded HTTP Server</p>\n    <p>Built with: C++, POSIX Sockets, Thread Pool</p>\n    <p><a href=\"/\">Home</a></p>\n</body>\n</html>\n"

/-- The page served for the path "/stats" (http_server.cpp lines 135-145). -/
def statsBody : String :=
  "\n<!DOCTYPE html>\n<html>\n<head><title>Stats</title></head>\n<body>\n    <h1>Server Statistics</h1>\n    <p>Server is running smoothly!</p>\n    <p><a href=\"/\">Home</a></p>\n</body>\n</html>\n"

/-- The response chosen for a request (http_server.cpp lines 95-152): the C string in
the buffer ends at its first NUL byte. -/
def respond (buffer : List Char) : String :=
  let request := String.mk (buffer.takeWhile (fun c => c.toNat ≠ 0))
  let path := parseRequest request
  if path = "/" then buildResponse 200 "text/html" homeBody
  else if path = "/about" then buildResponse 200 "text/html" aboutBody
  else if path = "/stats" then buildResponse 200 "text/html" statsBody
  else buildResponse 404 "text/html" "<h1>404 Not Found</h1>"

/-- The calls `HttpServer::handleClient` makes (http_server.cpp lines 87-158), given what
the read delivers: the read of at most 4095 bytes, the write of the response when at
least one byte was read, and the close. -/
def handleClientCalls (client_socket : Int) (outcome : ReadOutcome) : List Call :=
  let buffer : List Char :=
    match outcome with
    | ReadOutcome.error => []
    | ReadOutcome.data bytes => bytes.take 4095
  let bytes_read : Int :=
    match outcome with
    | ReadOutcome.error => -1
    | ReadOutcome.data _ => (buffer.length : Int)
  [Call.read client_socket 4095 bytes_read]
    ++ (if bytes_read > 0 then [Call.write client_socket (respond buffer)] else [])
    ++ [Call.close client_socket]

/-- Embedding of `HttpServer::handleClient` as an action on the network. -/
def handleClient (client_socket : Int) (net : Net) : Net :=
  { net with trace := net.trace ++ handleClientCalls client_socket (net.incoming client_socket) }

/-- The work item of http_server.cpp lines 72-73: the lambda
`[this, client_socket]() { this->handleClient(client_socket); }`. -/
def clientTask (client_socket : Int) : Net → Except String Unit × Net :=
  fun net => (Except.ok (), handleClient client_socket net)

/-- Embedding of the constructor `HttpServer::HttpServer` (http_server.cpp lines 11-15):
no argument is checked, and `thread_count` is converted to `size_t` for the pool. -/
def create (port : Int) (thread_count : Int) : Except String HttpServer :=
  match ThreadPool.create (toSizeT thread_count) with
  | Except.error e => Except.error e
  | Except.ok pool =>
    Except.ok { port_ := port, server_socket_ := -1, running_ := false, thread_pool_ := pool }

/-- Construction with the default argument of the declaration
`HttpServer(int port, int thread_count = 4)` (http_server.h line 11). -/
def createDefault (port : Int) : Except String HttpServer :=
  create port 4

/-- Embedding of `HttpServer::stop` (http_server.cpp lines 77-85). -/
def stop (w : World) : World :=
  let srv1 := { w.srv with running_ := false }
  if srv1.server_socket_ ≥ 0 then
    { w with srv := { srv1 with server_socket_ := -1 },
             net := w.net.log (Call.close srv1.server_socket_) }
  else
    { w with srv := srv1 }

/-- Embedding of the destructor `HttpServer::~HttpServer` (http_server.cpp lines 17-20). -/
def destroy (w : World) : World :=
  stop w

end HttpServer

/-- Appends one call to the trace of a world. -/
def World.log (w : World) (c : Call) : World :=
  { w with net := w.net.log c }

/-- Return values of the four set-up calls of `start`, as the operating system decides
them. A value is consulted only if the call is reached. -/
structure SetupEnv where
  socket_ret : Int
  setsockopt_ret : Int
  bind_ret : Int
  listen_ret : Int
  deriving DecidableEq, Repr

/-- One return of the blocking `accept`: its return value, and whether `stop()` ran (from
another thread or a handler) while the call was blocked. -/
structure AcceptEvent where
  stop_called : Bool
  ret : Int
  deriving DecidableEq, Repr

/-- How a call ended: it returned, an exception left it, or it is still blocked in
`accept` because the environment has delivered nothing further. -/
inductive Completion where
  | returned
  | raised (what : String)
  | blocked
  deriving DecidableEq, Repr

namespace HttpServer

/-- The set-up part of `HttpServer::start` (http_server.cpp lines 24-55): the exception
thrown, if any, and the world reached. The port is passed through `htons`, which keeps
its low 16 bits. -/
def setup (w : World) (env : SetupEnv) : Option String × World :=
  let w1 := ({ w with srv := { w.srv with server_socket_ := env.socket_ret } }).log
    (Call.socket env.socket_ret)
  if w1.srv.server_socket_ < 0 then
    (some "Failed to create socket", w1)
  else
    let w2 := w1.log (Call.setsockopt w1.srv.server_socket_ env.setsockopt_ret)
    if env.setsockopt_ret < 0 then
      (some "Failed to set socket options", w2.log (Call.close w2.srv.server_socket_))
    else
      let w3 := w2.log (Call.bind w2.srv.server_socket_ (w2.srv.port_ % 65536) env.bind_ret)
      if env.bind_ret < 0 then
        (some "Failed to bind socket", w3.log (Call.close w3.srv.server_socket_))
      else
        let w4 := w3.log (Call.listen w3.srv.server_socket_ 10 env.listen_ret)
        if env.listen_ret < 0 then
          (some "Failed to listen on socket", w4.log (Call.close w4.srv.server_socket_))
        else
          let w5 := { w4 with srv := { w4.srv with running_ := true } }
          (none, w5.log (Call.cout ("Server started on port " ++ toString w5.srv.port_ ++ "\n")))

/-- One pass through the body of the accept loop (http_server.cpp lines 59-73): the
exception that left it, if any, and the world reached. The future returned by
`enqueue` is discarded. -/
def acceptIteration (w : World) (a : AcceptEvent) : Option String × World :=
  let listening := w.srv.server_socket_
  let w1 := if a.stop_called then stop w else w
  let w2 := w1.log (Call.accept listening a.ret)
  let client_socket := a.ret
  if client_socket < 0 then
    if w2.srv.running_ then
      (none, w2.log (Call.cerr "Failed to accept connection\n"))
    else
      (none, w2)
  else
    let w3 := w2.log (Call.enqueue client_socket)
    let r := ThreadPool.enqueue w3.mem w3.srv.thread_pool_ (clientTask client_socket)
    (r.raised, { w3 with mem := r.mem, srv := { w3.srv with thread_pool_ := r.pool } })

/-- The loop `while (running_)` of `HttpServer::start` (http_server.cpp lines 57-74), run
against the accept events the environment delivers, in order. -/
def acceptLoop : List AcceptEvent → World → Completion × World
  | [], w => if w.srv.running_ then (Completion.blocked, w) else (Completion.returned, w)
  | a :: rest, w =>
    if w.srv.running_ then
      match acceptIteration w a with
      | (some e, w1) => (Completion.raised e, w1)
      | (none, w1) => acceptLoop rest w1
    else
      (Completion.returned, w)

/-- Embedding of `HttpServer::start` (http_server.cpp lines 22-75). -/
def start (w : World) (env : SetupEnv) (script : List AcceptEvent) : Completion × World :=
  match setup w env with
  | (some e, w1) => (Completion.raised e, w1)
  | (none, w1) => acceptLoop script w1

end HttpServer

/-! ## src/main.cpp -/

/-- Value of `SIGINT` in `<csignal>` on POSIX systems. -/
def SIGINT : Int := 2

/-- Value of `SIGTERM` in `<csignal>` on POSIX systems. -/
def SIGTERM : Int := 15

/-- Conversion of a `long` to `int`: reduction modulo 2^32 into the range of a 32-bit
two's complement integer. -/
def toInt32 (x : Int) : Int :=
  (x + 2147483648) % 4294967296 - 2147483648

/-- The C library function `strtol` in base 10, as `atoi` uses it: leading white space,
an optional sign, then the longest run of decimal digits, 0 when there is none; a value
outside the range of a 64-bit `long` is replaced by the nearest bound. -/
def strtol (s : String) : Int :=
  let cs := s.data.dropWhile isspace
  let negative := cs.head?.map Char.toNat = some 45
  let signed := cs.head?.map Char.toNat = some 45 || cs.head?.map Char.toNat = some 43
  let ds := ((if signed then cs.drop 1 else cs).takeWhile Char.isDigit)
  let magnitude : Nat := ds.foldl (fun acc d => acc * 10 + (d.toNat - 48)) 0
  let value : Int := if negative then -(magnitude : Int) else (magnitude : Int)
  max (-9223372036854775808) (min value 9223372036854775807)

/-- The C library function `atoi`, which returns an `int`: the result of `strtol` in
base 10 converted to `int`, so the value always lies in the range of `int`. -/
def atoi (s : String) : Int :=
  toInt32 (strtol s)

namespace Program

/-- A process as observed from outside: the exit status once it has terminated, and the
calls it made. -/
structure Process where
  status : Option Int
  trace : List Call

/-- Embedding of `signalHandler` (main.cpp lines 8-16) for a signal delivered while
`start()` runs, when the global `server` is set: the status passed to `exit` and the
world the handler leaves. -/
def signalHandler (signum : Int) (w : World) : Int × World :=
  let w1 := w.log (Call.cout ("\nInterrupt signal (" ++ toString signum ++ ") received.\n"))
  (signum, HttpServer.stop w1)

/-- The port `main` uses (main.cpp lines 20, 23-26): 8080 unless a first argument is given. -/
def portArg (argv : List String) : Int :=
  if argv.length > 1 then atoi (argv.getD 1 "") else 8080

/-- The worker count `main` uses (main.cpp lines 21, 27-30): 4 unless a second argument
is given. -/
def threadsArg (argv : List String) : Int :=
  if argv.length > 2 then atoi (argv.getD 2 "") else 4

/-- The world in which `main` calls `start()` (main.cpp lines 37-39): the server just
constructed, no shared state yet, and the start-up message written. -/
def booted (argv : List String) (incoming : Int → ReadOutcome) (srv : HttpServer) : World :=
  World.log { srv := srv, mem := [], net := { incoming := incoming, trace := [] } }
    (Call.cout ("Starting HTTP Server on port " ++ toString (portArg argv)
      ++ " with " ++ toString (threadsArg argv) ++ " threads...\n"))

/-- Embedding of `main` (main.cpp lines 18-49). `argv` includes the program name;
`incoming` is what reads on client sockets deliver; `env` and `script` are the outcomes
of the calls `start()` makes; `sig` is a signal (SIGINT or SIGTERM, the two for which the
handler is installed) delivered once `script` is used up and `start()` is blocked.
After `main` returns or `exit` is called, the global `server` is destroyed.
Nothing in main.cpp but the signal handler calls `stop()`; an event of `script` with
`stop_called` stands for a `stop()` issued by other code through the global `server`,
which is the only way `start()` can return normally. -/
def main (argv : List String) (incoming : Int → ReadOutcome) (env : SetupEnv)
    (script : List AcceptEvent) (sig : Option Int) : Process :=
  match HttpServer.create (portArg argv) (threadsArg argv) with
  | Except.error e =>
    { status := some 1, trace := [Call.cerr ("Error: " ++ e ++ "\n")] }
  | Except.ok srv =>
    match HttpServer.start (booted argv incoming srv) env script with
    | (Completion.raised e, w2) =>
      let w3 := w2.log (Call.cerr ("Error: " ++ e ++ "\n"))
      { status := some 1, trace := (HttpServer.destroy w3).net.trace }
    | (Completion.returned, w2) =>
      { status := some 0, trace := (HttpServer.destroy w2).net.trace }
    | (Completion.blocked, w2) =>
      match sig with
      | none => { status := none, trace := w2.net.trace }
      | some signum =>
        let r := signalHandler signum w2
        { status := some r.1, trace := (HttpServer.destroy r.2).net.trace }

end Program

/-! ## Sample states and inputs -/

/-- A pool with one worker and an empty queue that accepts work. -/
def idlePool : ThreadPool.State Nat String Nat :=
  { workers_ := 1, tasks_ := [], stop_ := false, notified := 0 }

/-- A pool with one worker whose queue holds nothing and that has been stopped. -/
def stoppedPool : ThreadPool.State Nat String Nat :=
  { workers_ := 1, tasks_ := [], stop_ := true, notified := 0 }

/-- A callable that bumps a counter and returns its old value. -/
def countingCallable : Nat → Except String Nat × Nat :=
  fun n => (Except.ok n, n + 1)

/-- A callable that bumps a counter and throws. -/
def failingCallable : Nat → Except String Nat × Nat :=
  fun n => (Except.error "boom", n + 1)

/-- A running server listening on descriptor 3, port 8080, with an idle pool of four. -/
def listeningWorld : World :=
  { srv := { port_ := 8080, server_socket_ := 3, running_ := true,
             thread_pool_ := { workers_ := 4, tasks_ := [], stop_ := false, notified := 0 } },
    mem := [],
    net := { incoming := fun _ => ReadOutcome.error, trace := [Call.socket 3] } }

/-- A server as its constructor leaves it, on port 8080 with an idle pool of four. -/
def freshWorld : World :=
  { srv := { port_ := 8080, server_socket_ := -1, running_ := false,
             thread_pool_ := { workers_ := 4, tasks_ := [], stop_ := false, notified := 0 } },
    mem := [],
    net := { incoming := fun _ => ReadOutcome.error, trace := [] } }

/-- Reads that always fail, for runs in which no handler is executed. -/
def noData : Int → ReadOutcome :=
  fun _ => ReadOutcome.error

/-- Set-up in which every call succeeds and the listening socket is descriptor 3. -/
def setupOk : SetupEnv :=
  ⟨3, 0, 0, 0⟩

/-- Set-up in which the socket is descriptor 3 and bind fails. -/
def setupBindFails : SetupEnv :=
  ⟨3, 0, -1, 0⟩

/-! ## Theorems: the thread pool -/

section ThreadPoolTheorems

open ThreadPool

/-- C1: on a pool whose `stop_` is true, `enqueue` throws the error
"enqueue on stopped ThreadPool", returns no future, and leaves the pool (its queue
included) and the shared states exactly as they were. -/
theorem enqueue_stopped_rejects {ω ε α : Type} (mem : Memory ε α) (s : State ω ε α)
    (f : ω → Except ε α × ω) (h : s.stop_ = true) :
    (enqueue mem s f).raised = some "enqueue on stopped ThreadPool" ∧
    (enqueue mem s f).handle = none ∧
    (enqueue mem s f).pool = s ∧
    (enqueue mem s f).pool.tasks_ = s.tasks_ ∧
    (enqueue mem s f).mem = mem := by
  simp [enqueue, h]

/-- Witness for C1: a stopped pool rejecting a submission. -/
theorem enqueue_stopped_rejects_witness :
    stoppedPool.stop_ = true ∧
    (enqueue [] stoppedPool countingCallable).raised = some "enqueue on stopped ThreadPool" ∧
    (enqueue [] stoppedPool countingCallable).handle = none ∧
    (enqueue [] stoppedPool countingCallable).pool.tasks_ = [] :=
  have h := enqueue_stopped_rejects [] stoppedPool countingCallable rfl
  ⟨rfl, h.1, h.2.1, h.2.2.2.1⟩

/-- C2: on a pool whose `stop_` is false, whatever the queue holds, `enqueue` returns a
future without throwing, and the queue afterwards is the old queue with exactly one new
item, carrying the submitted callable, at the tail: the length grows by one and the
first items are the old ones in order. Two submissions in a row therefore sit in the
queue in submission order. -/
theorem enqueue_appends_at_tail {ω ε α : Type} (mem : Memory ε α) (s : State ω ε α)
    (f g : ω → Except ε α × ω) (h : s.stop_ = false) :
    (enqueue mem s f).raised = none ∧
    (enqueue mem s f).handle.isSome = true ∧
    (enqueue mem s f).pool.stop_ = false ∧
    (∃ item, item.fn = f ∧ (enqueue mem s f).pool.tasks_ = s.tasks_ ++ [item]) ∧
    (enqueue mem s f).pool.tasks_.length = s.tasks_.length + 1 ∧
    (enqueue mem s f).pool.tasks_.take s.tasks_.length = s.tasks_ ∧
    (∃ a b, a.fn = f ∧ b.fn = g ∧
      (enqueue (enqueue mem s f).mem (enqueue mem s f).pool g).raised = none ∧
      (enqueue (enqueue mem s f).mem (enqueue mem s f).pool g).pool.tasks_
        = s.tasks_ ++ [a, b]) := by
  simp [enqueue, h]

/-- Witness for C2: two submissions to an idle pool. -/
theorem enqueue_appends_at_tail_witness :
    idlePool.stop_ = false ∧
    (enqueue [] idlePool countingCallable).raised = none ∧
    (enqueue [] idlePool countingCallable).pool.tasks_.length = 1 :=
  have h := enqueue_appends_at_tail [] idlePool countingCallable failingCallable rfl
  ⟨rfl, h.1, h.2.2.2.2.1⟩

/-- C3: the item that `enqueue` puts in the queue for a callable `f`, when a worker runs
it on a shared state that has not been written yet (as it is right after `enqueue`),
returns normally whatever `f` does: no exception leaves the item, the future holds the
value `f` returned or the exception `f` threw, and the shared state has been stored
into exactly once. -/
theorem queued_item_captures_outcome {ω ε α : Type} (mem : Memory ε α) (s : State ω ε α)
    (f : ω → Except ε α × ω) (h : s.stop_ = false) :
    ∃ item fut,
      (enqueue mem s f).pool.tasks_ = s.tasks_ ++ [item] ∧
      (enqueue mem s f).handle = some fut ∧
      (enqueue mem s f).mem[fut.cell]? = some [] ∧
      fut.get (enqueue mem s f).mem = none ∧
      fut.storeCount (enqueue mem s f).mem = 0 ∧
      ∀ (mem1 : Memory ε α) (w : ω), mem1[fut.cell]? = some [] →
        (runItem item mem1 w).raised = none ∧
        (runItem item mem1 w).env = (f w).2 ∧
        fut.get (runItem item mem1 w).mem = some (f w).1 ∧
        fut.storeCount (runItem item mem1 w).mem = 1 ∧
        (∀ v, (f w).1 = Except.ok v → fut.get (runItem item mem1 w).mem = some (Except.ok v)) ∧
        (∀ e, (f w).1 = Except.error e →
          fut.get (runItem item mem1 w).mem = some (Except.error e)) := by
  refine ⟨{ fn := f, cell := mem.length }, { cell := mem.length }, ?_, ?_, ?_, ?_, ?_, ?_⟩
  · simp [enqueue, h]
  · simp [enqueue, h]
  · simp [enqueue, h]
  · simp [enqueue, h, Future.get]
  · simp [enqueue, h, Future.storeCount]
  · intro mem1 w hcell
    have hlt : mem.length < mem1.length := by
      by_contra hge
      have : mem1[mem.length]? = none := List.getElem?_eq_none (by omega)
      simp [this] at hcell
    have hget : (mem1.set mem.length [(f w).1])[mem.length]? = some [(f w).1] := by
      simp [List.getElem?_set, hlt]
    simp only at hcell
    refine ⟨?_, ?_, ?_, ?_, ?_, ?_⟩
    · simp [runItem, PackagedTask.invoke, hcell]
    · simp [runItem, PackagedTask.invoke, hcell]
    · simp [runItem, PackagedTask.invoke, hcell, Future.get, hget]
    · simp [runItem, PackagedTask.invoke, hcell, Future.storeCount, hget]
    · intro v hv
      rw [← hv]
      simp [runItem, PackagedTask.invoke, hcell, Future.get, hget]
    · intro e he
      rw [← he]
      simp [runItem, PackagedTask.invoke, hcell, Future.get, hget]

/-- Witness for C3: a throwing callable submitted to an idle pool and then run. -/
theorem queued_item_captures_outcome_witness :
    idlePool.stop_ = false ∧
    ∃ item fut,
      (enqueue [] idlePool failingCallable).pool.tasks_ = [item] ∧
      (enqueue [] idlePool failingCallable).handle = some fut ∧
      (runItem item (enqueue [] idlePool failingCallable).mem 0).raised = none ∧
      fut.get (runItem item (enqueue [] idlePool failingCallable).mem 0).mem
        = some (Except.error "boom") ∧
      fut.storeCount (runItem item (enqueue [] idlePool failingCallable).mem 0).mem = 1 := by
  obtain ⟨item, fut, h1, h2, h3, _, _, h6⟩ :=
    queued_item_captures_outcome [] idlePool failingCallable rfl
  have h7 := h6 (enqueue [] idlePool failingCallable).mem 0 h3
  exact ⟨rfl, item, fut, h1, h2, h7.1, h7.2.2.1, h7.2.2.2.1⟩

end ThreadPoolTheorems

/-! ## Theorems: the connection handler -/

section HandlerTheorems

open HttpServer

/-- In a list that ends with its only occurrence of `x`, nothing follows an occurrence of `x`. -/
theorem nothing_after_final {β : Type} (x : β) (init : List β) (hx : x ∉ init) :
    ∀ pre post : List β, pre ++ x :: post = init ++ [x] → post = [] := by
  induction init with
  | nil =>
    intro pre post h
    cases pre with
    | nil => simpa using h
    | cons b pre1 =>
      cases pre1 <;> simp at h
  | cons a init1 ih =>
    intro pre post h
    cases pre with
    | nil =>
      simp only [List.nil_append, List.cons_append, List.cons.injEq] at h
      exact absurd (by simp [h.1]) hx
    | cons b pre1 =>
      simp only [List.cons_append, List.cons.injEq] at h
      exact ih (fun hmem => hx (List.mem_cons_of_mem _ hmem)) pre1 post h.2

/-- The calls of the handler that precede its final close: the read, and the write when
at least one byte was read. -/
theorem handleClientCalls_shape (c : Int) (outcome : ReadOutcome) :
    ∃ init, handleClientCalls c outcome = init ++ [Call.close c] ∧
      (∀ fd, Call.close fd ∉ init) ∧
      (∀ x ∈ init, (∃ n r, x = Call.read c n r) ∨ (∃ d, x = Call.write c d)) := by
  cases outcome with
  | error =>
    refine ⟨[Call.read c 4095 (-1)], ?_, ?_, ?_⟩
    · simp [handleClientCalls]
    · intro fd; simp
    · intro x hx; simp at hx; left; exact ⟨_, _, hx⟩
  | data bytes =>
    by_cases hpos : ((List.take 4095 bytes).length : Int) > 0
    · refine ⟨[Call.read c 4095 ((List.take 4095 bytes).length : Int),
        Call.write c (respond (List.take 4095 bytes))], ?_, ?_, ?_⟩
      · simp only [handleClientCalls, if_pos hpos]; rfl
      · intro fd; simp
      · intro x hx
        simp only [List.mem_cons, List.mem_singleton, List.not_mem_nil, or_false] at hx
        rcases hx with hx | hx
        · left; exact ⟨_, _, hx⟩
        · right; exact ⟨_, hx⟩
    · refine ⟨[Call.read c 4095 ((List.take 4095 bytes).length : Int)], ?_, ?_, ?_⟩
      · simp only [handleClientCalls, if_neg hpos]; rfl
      · intro fd; simp
      · intro x hx; simp at hx; left; exact ⟨_, _, hx⟩

/-- C4: for every client socket and everything the read can deliver (an error, no
bytes, or any bytes at all), the calls `handleClient` makes are appended to the trace,
touch no descriptor but the client socket, contain exactly one close of it and no close
of anything else, end with that close, and have nothing after it: no read or write
follows the close. -/
theorem handleClient_closes_exactly_once (c : Int) (net : Net) :
    (handleClient c net).trace = net.trace ++ handleClientCalls c (net.incoming c) ∧
    ∀ outcome : ReadOutcome,
      (handleClientCalls c outcome).count (Call.close c) = 1 ∧
      (∀ fd, fd ≠ c → (handleClientCalls c outcome).count (Call.close fd) = 0) ∧
      (handleClientCalls c outcome).getLast? = some (Call.close c) ∧
      (∀ pre post, handleClientCalls c outcome = pre ++ Call.close c :: post → post = []) ∧
      (∀ x ∈ handleClientCalls c outcome,
        (∃ n r, x = Call.read c n r) ∨ (∃ d, x = Call.write c d) ∨ x = Call.close c) := by
  refine ⟨rfl, ?_⟩
  intro outcome
  obtain ⟨init, hinit, hnoclose, hkind⟩ := handleClientCalls_shape c outcome
  rw [hinit]
  refine ⟨?_, ?_, ?_, ?_, ?_⟩
  · rw [List.count_append, List.count_eq_zero_of_not_mem (hnoclose c)]
    simp
  · intro fd hfd
    rw [List.count_append, List.count_eq_zero_of_not_mem (hnoclose fd)]
    simp [hfd]
  · simp
  · intro pre post h
    exact nothing_after_final (Call.close c) init (hnoclose c) pre post h.symm
  · intro x hx
    rcases List.mem_append.mp hx with hx | hx
    · rcases hkind x hx with h | h
      · exact Or.inl h
      · exact Or.inr (Or.inl h)
    · right; right; simpa using hx

/-- Witness for C4: a request for the home page on client socket 7 is read, answered
and closed, in that order, and a failed read is followed by the close alone. -/
theorem handleClient_closes_exactly_once_witness :
    (7 : Int) ≠ 3 ∧
    (handleClientCalls 7 (ReadOutcome.data "GET / HTTP/1.1\r\n\r\n".data)).count (Call.close 7) = 1 ∧
    (handleClientCalls 7 (ReadOutcome.data "GET / HTTP/1.1\r\n\r\n".data)).count (Call.close 3) = 0 ∧
    (handleClientCalls 7 (ReadOutcome.data "GET / HTTP/1.1\r\n\r\n".data)).getLast?
      = some (Call.close 7) ∧
    handleClientCalls 7 ReadOutcome.error = [Call.read 7 4095 (-1), Call.close 7] :=
  have h := (handleClient_closes_exactly_once 7 { incoming := noData, trace := [] }).2
    (ReadOutcome.data "GET / HTTP/1.1\r\n\r\n".data)
  ⟨by decide, h.1, h.2.1 3 (by decide), h.2.2.1, by rfl⟩

end HandlerTheorems

/-! ## Theorems: the server life cycle -/

section ServerTheorems

open HttpServer

/-- C5: `HttpServer::stop` is idempotent. For every state, a second `stop` changes
nothing at all, and in particular adds no call to the trace: it closes nothing. After
`stop`, `running_` is false and `server_socket_` is negative, namely -1 whenever it
held a descriptor or -1 before (the values the constructor and `socket` give it); over
both calls together at most one close is made, of the descriptor `server_socket_` named
before the first call. -/
theorem stop_idempotent (w : World) :
    stop (stop w) = stop w ∧
    (stop w).srv.running_ = false ∧
    (stop w).srv.server_socket_ < 0 ∧
    (-1 ≤ w.srv.server_socket_ → (stop w).srv.server_socket_ = -1) ∧
    (stop (stop w)).net.trace = (stop w).net.trace ∧
    (stop (stop w)).net.trace = w.net.trace ++
      (if w.srv.server_socket_ ≥ 0 then [Call.close w.srv.server_socket_] else []) ∧
    (∀ fd, (stop (stop w)).net.trace.count (Call.close fd)
      ≤ w.net.trace.count (Call.close fd) + 1) := by
  by_cases h : w.srv.server_socket_ ≥ 0
  · refine ⟨?_, ?_, ?_, ?_, ?_, ?_, ?_⟩ <;> simp [stop, h, Net.log]
    intro fd
    exact (List.count_le_length _ _).trans (by simp)
  · refine ⟨?_, ?_, ?_, ?_, ?_, ?_, ?_⟩ <;> simp [stop, h, Net.log]
    · omega
    · intro h1
      omega

/-- Witness for C5: stopping a listening server twice. -/
theorem stop_idempotent_witness :
    -1 ≤ listeningWorld.srv.server_socket_ ∧
    (stop listeningWorld).srv.server_socket_ = -1 ∧
    (stop (stop listeningWorld)).net.trace = [Call.socket 3, Call.close 3] :=
  have h := stop_idempotent listeningWorld
  ⟨by decide, h.2.2.2.1 (by decide), h.2.2.2.2.2.1⟩

/-- C7: if any of the four set-up steps of `start` fails (socket, setsockopt, bind,
listen), `start` raises an exception, `running_` keeps the value it had (it is never
assigned), the pool and the shared states are untouched, and the calls made contain no
accept and no submission. If all four steps succeed, set-up raises nothing and leaves
`running_` true, and only then is the accept loop entered. -/
theorem start_setup_failure_raises (w : World) (env : SetupEnv) (script : List AcceptEvent) :
    ((env.socket_ret < 0 ∨ env.setsockopt_ret < 0 ∨ env.bind_ret < 0 ∨ env.listen_ret < 0) →
      (∃ what, (start w env script).1 = Completion.raised what) ∧
      (start w env script).2.srv.running_ = w.srv.running_ ∧
      (start w env script).2.srv.thread_pool_ = w.srv.thread_pool_ ∧
      (start w env script).2.mem = w.mem ∧
      ∃ calls, (start w env script).2.net.trace = w.net.trace ++ calls ∧
        (∀ fd r, Call.accept fd r ∉ calls) ∧ (∀ c, Call.enqueue c ∉ calls)) ∧
    ((0 ≤ env.socket_ret ∧ 0 ≤ env.setsockopt_ret ∧ 0 ≤ env.bind_ret ∧ 0 ≤ env.listen_ret) →
      (setup w env).1 = none ∧
      (setup w env).2.srv.running_ = true ∧
      start w env script = acceptLoop script (setup w env).2) ∧
    ((setup w env).1 = none →
      0 ≤ env.socket_ret ∧ 0 ≤ env.setsockopt_ret ∧ 0 ≤ env.bind_ret ∧ 0 ≤ env.listen_ret) := by
  by_cases h1 : env.socket_ret < 0
  · simp [start, setup, World.log, Net.log, h1]
  · by_cases h2 : env.setsockopt_ret < 0
    · simp [start, setup, World.log, Net.log, h1, h2]
    · by_cases h3 : env.bind_ret < 0
      · simp [start, setup, World.log, Net.log, h1, h2, h3]
      · by_cases h4 : env.listen_ret < 0
        · simp [start, setup, World.log, Net.log, h1, h2, h3, h4]
        · simp [start, setup, World.log, Net.log, h1, h2, h3, h4]
          omega

/-- Witness for C7: a start whose bind fails, and a set-up that succeeds. -/
theorem start_setup_failure_raises_witness :
    ((3 : Int) < 0 ∨ (0 : Int) < 0 ∨ (-1 : Int) < 0 ∨ (0 : Int) < 0) ∧
    (start freshWorld ⟨3, 0, -1, 0⟩ [⟨false, 4⟩]).1 = Completion.raised "Failed to bind socket" ∧
    (start freshWorld ⟨3, 0, -1, 0⟩ [⟨false, 4⟩]).2.srv.running_ = false ∧
    (setup freshWorld ⟨3, 0, 0, 0⟩).2.srv.running_ = true :=
  have h := start_setup_failure_raises freshWorld ⟨3, 0, -1, 0⟩ [⟨false, 4⟩]
  have hfail : ((3 : Int) < 0 ∨ (0 : Int) < 0 ∨ (-1 : Int) < 0 ∨ (0 : Int) < 0) := by decide
  have g := start_setup_failure_raises freshWorld ⟨3, 0, 0, 0⟩ []
  ⟨hfail, rfl, (h.1 hfail).2.1, (g.2.1 (by decide)).2.1⟩

/-- The calls one pass through the loop body appends to the trace: the close made by a
concurrent `stop()`, the accept, and then the error message or the submission. -/
theorem acceptIteration_trace (w : World) (a : AcceptEvent) :
    (acceptIteration w a).2.net.trace
      = w.net.trace ++
        ((if a.stop_called = true ∧ w.srv.server_socket_ ≥ 0
            then [Call.close w.srv.server_socket_] else [])
          ++ Call.accept w.srv.server_socket_ a.ret
          :: (if a.ret < 0 then
                (if w.srv.running_ = true ∧ a.stop_called = false
                  then [Call.cerr "Failed to accept connection\n"] else [])
              else [Call.enqueue a.ret])) := by
  rcases a with ⟨sc, ret⟩
  by_cases hs : w.srv.server_socket_ ≥ 0 <;> by_cases hr : ret < 0 <;>
    by_cases hrun : w.srv.running_ = true <;> cases sc <;>
    simp [acceptIteration, stop, World.log, Net.log, hs, hr, hrun]

/-- The pool and the shared states after one pass through the loop body are those the
single `enqueue` call leaves, or the old ones when accept failed; a concurrent `stop()`
touches neither. -/
theorem acceptIteration_pool (w : World) (a : AcceptEvent) :
    (a.ret < 0 →
      (acceptIteration w a).1 = none ∧
      (acceptIteration w a).2.srv.thread_pool_ = w.srv.thread_pool_ ∧
      (acceptIteration w a).2.mem = w.mem) ∧
    (0 ≤ a.ret →
      (acceptIteration w a).1
        = (ThreadPool.enqueue w.mem w.srv.thread_pool_ (clientTask a.ret)).raised ∧
      (acceptIteration w a).2.srv.thread_pool_
        = (ThreadPool.enqueue w.mem w.srv.thread_pool_ (clientTask a.ret)).pool ∧
      (acceptIteration w a).2.mem
        = (ThreadPool.enqueue w.mem w.srv.thread_pool_ (clientTask a.ret)).mem) ∧
    (acceptIteration w a).2.srv.running_ = (w.srv.running_ && !a.stop_called) := by
  rcases a with ⟨sc, ret⟩
  by_cases hs : w.srv.server_socket_ ≥ 0 <;> by_cases hr : ret < 0 <;>
    by_cases hrun : w.srv.running_ = true <;> cases sc <;>
    simp [acceptIteration, stop, World.log, Net.log, hs, hr, hrun]

/-- The accept loop only appends to the trace. -/
theorem acceptLoop_trace (script : List AcceptEvent) :
    ∀ w : World, ∃ calls, (acceptLoop script w).2.net.trace = w.net.trace ++ calls := by
  induction script with
  | nil =>
    intro w
    refine ⟨[], ?_⟩
    by_cases hrun : w.srv.running_ = true <;> simp [acceptLoop, hrun]
  | cons a rest ih =>
    intro w
    by_cases hrun : w.srv.running_ = true
    · rcases hit : acceptIteration w a with ⟨raised, w1⟩
      have ht := acceptIteration_trace w a
      rw [hit] at ht
      cases raised with
      | some e =>
        exact ⟨_, by simpa [acceptLoop, hrun, hit] using ht⟩
      | none =>
        obtain ⟨calls, hc⟩ := ih w1
        obtain ⟨step, hstep⟩ : ∃ step, w1.net.trace = w.net.trace ++ step := ⟨_, ht⟩
        refine ⟨step ++ calls, ?_⟩
        simp only [acceptLoop, hrun, if_true, hit]
        rw [hc, hstep, List.append_assoc]
    · exact ⟨[], by simp [acceptLoop, hrun]⟩

/-- A loop that has used up its events and is blocked in accept resumes from there when
further events arrive. -/
theorem acceptLoop_append (pre more : List AcceptEvent) :
    ∀ w w1 : World, acceptLoop pre w = (Completion.blocked, w1) →
      acceptLoop (pre ++ more) w = acceptLoop more w1 := by
  induction pre with
  | nil =>
    intro w w1 h
    by_cases hrun : w.srv.running_ = true
    · simp [acceptLoop, hrun] at h
      simp [h]
    · simp [acceptLoop, hrun] at h
  | cons a rest ih =>
    intro w w1 h
    by_cases hrun : w.srv.running_ = true
    · rcases hit : acceptIteration w a with ⟨raised, w2⟩
      cases raised with
      | some e => simp [acceptLoop, hrun, hit] at h
      | none =>
        simp only [acceptLoop, hrun, if_true, hit] at h
        simp only [List.cons_append, acceptLoop, hrun, if_true, hit]
        exact ih w2 w1 h
    · simp [acceptLoop, hrun] at h

/-- C6: in every pass through the accept loop, if accept returned a valid client
socket, `enqueue` is called exactly once, for that socket and whatever `running_` is,
and on a pool that takes work (the server never stops its pool while it lives) the queue
gains exactly one item and nothing is raised; that item is the handler of the accepted
socket: run by a worker it raises nothing and performs `handleClient` on that socket,
adding to the trace the read, the write if any, and the close of that socket. If accept
failed, nothing is submitted and nothing is raised. After a pass that raised nothing
the loop accepts again if `running_` is still true and returns if it is not; so an
accept that fails after `stop()` ran ends the loop, and `start` returns normally. A
pass never changes `stop_` of the pool. -/
theorem accept_loop_dispatch (w : World) (a : AcceptEvent) (rest : List AcceptEvent) :
    (0 ≤ a.ret →
      (∃ calls, (acceptIteration w a).2.net.trace = w.net.trace ++ calls ∧
        calls.count (Call.enqueue a.ret) = 1 ∧
        (∀ c, c ≠ a.ret → calls.count (Call.enqueue c) = 0)) ∧
      (w.srv.thread_pool_.stop_ = false →
        (acceptIteration w a).1 = none ∧
        ∃ item, item.fn = clientTask a.ret ∧
          (acceptIteration w a).2.srv.thread_pool_.tasks_
            = w.srv.thread_pool_.tasks_ ++ [item] ∧
          (∀ net : Net, item.fn net = (Except.ok (), handleClient a.ret net)) ∧
          (∀ net : Net, (item.fn net).2.incoming = net.incoming ∧
            (item.fn net).2.trace
              = net.trace ++ handleClientCalls a.ret (net.incoming a.ret) ∧
            Call.close a.ret ∈ handleClientCalls a.ret (net.incoming a.ret)) ∧
          (∀ net : Net,
            (ThreadPool.runItem item (acceptIteration w a).2.mem net).raised = none ∧
            (ThreadPool.runItem item (acceptIteration w a).2.mem net).env
              = handleClient a.ret net))) ∧
    (a.ret < 0 →
      (acceptIteration w a).1 = none ∧
      (acceptIteration w a).2.srv.thread_pool_ = w.srv.thread_pool_ ∧
      (acceptIteration w a).2.mem = w.mem ∧
      ∃ calls, (acceptIteration w a).2.net.trace = w.net.trace ++ calls ∧
        ∀ c, Call.enqueue c ∉ calls) ∧
    (w.srv.running_ = true → (acceptIteration w a).1 = none →
      acceptLoop (a :: rest) w = acceptLoop rest (acceptIteration w a).2 ∧
      ((acceptIteration w a).2.srv.running_ = false →
        acceptLoop rest (acceptIteration w a).2
          = (Completion.returned, (acceptIteration w a).2)) ∧
      ((acceptIteration w a).2.srv.running_ = true → ∀ b more, rest = b :: more →
        ∃ calls, (acceptLoop rest (acceptIteration w a).2).2.net.trace
            = (acceptIteration w a).2.net.trace ++ calls ∧
          Call.accept (acceptIteration w a).2.srv.server_socket_ b.ret ∈ calls)) ∧
    (w.srv.running_ = true → a.ret < 0 → a.stop_called = true →
      (acceptIteration w a).2.srv.running_ = false ∧
      acceptLoop (a :: rest) w = (Completion.returned, (acceptIteration w a).2) ∧
      ∀ w0 env pre, start w0 env pre = (Completion.blocked, w) →
        start w0 env (pre ++ a :: rest) = (Completion.returned, (acceptIteration w a).2)) ∧
    (acceptIteration w a).2.srv.thread_pool_.stop_ = w.srv.thread_pool_.stop_ := by
  have htrace := acceptIteration_trace w a
  obtain ⟨hfail, hok, hrunning⟩ := acceptIteration_pool w a
  have hcont : w.srv.running_ = true → (acceptIteration w a).1 = none →
      acceptLoop (a :: rest) w = acceptLoop rest (acceptIteration w a).2 := by
    intro hrun hnone
    rcases hit : acceptIteration w a with ⟨raised, w1⟩
    rw [hit] at hnone
    simp only at hnone
    subst hnone
    simp [acceptLoop, hrun, hit]
  have hreturn : ∀ w1 : World, w1.srv.running_ = false →
      acceptLoop rest w1 = (Completion.returned, w1) := by
    intro w1 h1
    cases rest <;> simp [acceptLoop, h1]
  refine ⟨?_, ?_, ?_, ?_, ?_⟩
  · intro hret
    have hnot : ¬ a.ret < 0 := by omega
    refine ⟨⟨_, htrace, ?_, ?_⟩, ?_⟩
    · simp only [if_neg hnot]
      split <;> simp
    · intro c hc
      simp only [if_neg hnot]
      split <;> simp [hc]
    · intro hstop
      obtain ⟨h1, h2, h3⟩ := hok hret
      refine ⟨?_, ⟨{ fn := clientTask a.ret, cell := w.mem.length }, rfl, ?_, ?_, ?_, ?_⟩⟩
      · rw [h1]; simp [ThreadPool.enqueue, hstop]
      · rw [h2]; simp [ThreadPool.enqueue, hstop]
      · intro net
        rfl
      · intro net
        refine ⟨rfl, rfl, ?_⟩
        obtain ⟨init, hinit, _, _⟩ := handleClientCalls_shape a.ret (net.incoming a.ret)
        rw [hinit]
        simp
      · intro net
        rw [h3]
        simp [ThreadPool.runItem, ThreadPool.PackagedTask.invoke, ThreadPool.enqueue, hstop,
          clientTask]
  · intro hret
    obtain ⟨h1, h2, h3⟩ := hfail hret
    refine ⟨h1, h2, h3, _, htrace, ?_⟩
    intro c
    simp only [if_pos hret]
    split <;> split <;> simp
  · intro hrun hnone
    refine ⟨hcont hrun hnone, hreturn _, ?_⟩
    intro hrun1 b more hrest
    subst hrest
    rcases hit : acceptIteration (acceptIteration w a).2 b with ⟨raised, w2⟩
    have ht1 := acceptIteration_trace (acceptIteration w a).2 b
    rw [hit] at ht1
    simp only at ht1
    obtain ⟨step, hstep, hmem⟩ : ∃ step, w2.net.trace = (acceptIteration w a).2.net.trace ++ step ∧
        Call.accept (acceptIteration w a).2.srv.server_socket_ b.ret ∈ step :=
      ⟨_, ht1, by simp⟩
    cases raised with
    | some e =>
      refine ⟨step, ?_, hmem⟩
      simp only [acceptLoop, hrun1, if_true, hit]
      exact hstep
    | none =>
      obtain ⟨calls, hc⟩ := acceptLoop_trace more w2
      refine ⟨step ++ calls, ?_, List.mem_append_left _ hmem⟩
      simp only [acceptLoop, hrun1, if_true, hit]
      rw [hc, hstep, List.append_assoc]
  · intro hrun hret hstop
    have hfalse : (acceptIteration w a).2.srv.running_ = false := by
      rw [hrunning, hstop]; simp
    have hloop : acceptLoop (a :: rest) w = (Completion.returned, (acceptIteration w a).2) := by
      rw [hcont hrun (hfail hret).1]
      exact hreturn _ hfalse
    refine ⟨hfalse, hloop, ?_⟩
    intro w0 env pre hstart
    rcases hsetup : setup w0 env with ⟨raised, ws⟩
    cases raised with
    | some e => simp [start, hsetup] at hstart
    | none =>
      simp only [start, hsetup] at hstart ⊢
      rw [acceptLoop_append pre (a :: rest) ws w hstart]
      exact hloop
  · by_cases hret : a.ret < 0
    · rw [(hfail hret).2.1]
    · rw [(hok (by omega)).2.1]
      cases hstop : w.srv.thread_pool_.stop_ <;> simp [ThreadPool.enqueue, hstop]

end ServerTheorems

/-! ## Theorems: the program -/

section ProgramTheorems

open HttpServer Program

/-- Witness for C6: a pass that accepts client 4, a pass whose accept fails after
`stop()`, a `start` that returns once that happens, and the item queued for client 4,
which reads from socket 4 and closes it. -/
theorem accept_loop_dispatch_witness :
    ((0 : Int) ≤ 4 ∧ listeningWorld.srv.thread_pool_.stop_ = false ∧
      (acceptIteration listeningWorld ⟨false, 4⟩).1 = none) ∧
    (listeningWorld.srv.running_ = true ∧ (-1 : Int) < 0 ∧
      acceptLoop [⟨true, -1⟩] listeningWorld
        = (Completion.returned, (acceptIteration listeningWorld ⟨true, -1⟩).2)) ∧
    (start freshWorld setupOk [⟨true, -1⟩]).1 = Completion.returned ∧
    (∃ item, (acceptIteration listeningWorld ⟨false, 4⟩).2.srv.thread_pool_.tasks_ = [item] ∧
      (item.fn { incoming := noData, trace := [] }).2.trace
        = [Call.read 4 4095 (-1), Call.close 4]) := by
  have h := accept_loop_dispatch listeningWorld ⟨false, 4⟩ []
  have g := accept_loop_dispatch listeningWorld ⟨true, -1⟩ []
  have k := accept_loop_dispatch (start freshWorld setupOk []).2 ⟨true, -1⟩ []
  refine ⟨⟨by decide, rfl, ((h.1 (by decide)).2 rfl).1⟩,
    ⟨rfl, by decide, (g.2.2.2.1 rfl (by decide) rfl).2.1⟩, ?_, ?_⟩
  · have k1 := (k.2.2.2.1 rfl (by decide) rfl).2.2 freshWorld setupOk [] rfl
    rw [List.nil_append] at k1
    rw [k1]
  · obtain ⟨item, _, htasks, _, hruns, _⟩ := ((h.1 (by decide)).2 rfl).2
    exact ⟨item, htasks, (hruns { incoming := noData, trace := [] }).2.1⟩

/-- Counterexample for C8: SIGINT delivered to a server that started and is blocked in
accept. The handler stops the server (the listening descriptor 3 is closed) and the
process exits with status 2, not 0. -/
theorem sigint_exit_status_nonzero :
    (main ["server"] noData setupOk [] (some SIGINT)).status = some 2 ∧
    (main ["server"] noData setupOk [] (some SIGINT)).status ≠ some 0 ∧
    (main ["server"] noData setupOk [] (some SIGINT)).trace.getLast? = some (Call.close 3) := by
  refine ⟨rfl, ?_, rfl⟩
  decide

/-- A `start` whose set-up fails raises. -/
theorem start_raises_of_setup_failure (w : World) (env : SetupEnv) (script : List AcceptEvent)
    (h : env.socket_ret < 0 ∨ env.setsockopt_ret < 0 ∨ env.bind_ret < 0 ∨ env.listen_ret < 0) :
    ∃ what, (start w env script).1 = Completion.raised what := by
  by_cases h1 : env.socket_ret < 0
  · simp [start, setup, World.log, Net.log, h1]
  · by_cases h2 : env.setsockopt_ret < 0
    · simp [start, setup, World.log, Net.log, h1, h2]
    · by_cases h3 : env.bind_ret < 0
      · simp [start, setup, World.log, Net.log, h1, h2, h3]
      · by_cases h4 : env.listen_ret < 0
        · simp [start, setup, World.log, Net.log, h1, h2, h3, h4]
        · omega

/-- C8, amended: the exit status of the program is 1 if constructing the server raised;
otherwise it is 0 if `start()` returned normally, 1 if `start()` raised, which it does
whenever a set-up step (socket, setsockopt, bind, listen) fails, and the signal number
if a signal arrived while `start()` was blocked and the handler stopped the server. The
handler is installed for SIGINT and SIGTERM, whose numbers 2 and 15 are not zero. While
the server is blocked and no signal arrives there is no exit status. -/
theorem main_exit_status (argv : List String) (incoming : Int → ReadOutcome) (env : SetupEnv)
    (script : List AcceptEvent) (sig : Option Int) :
    (∀ e, HttpServer.create (portArg argv) (threadsArg argv) = Except.error e →
      (main argv incoming env script sig).status = some 1) ∧
    (∀ srv, HttpServer.create (portArg argv) (threadsArg argv) = Except.ok srv →
      ((start (booted argv incoming srv) env script).1 = Completion.returned →
        (main argv incoming env script sig).status = some 0) ∧
      (∀ what, (start (booted argv incoming srv) env script).1 = Completion.raised what →
        (main argv incoming env script sig).status = some 1) ∧
      ((env.socket_ret < 0 ∨ env.setsockopt_ret < 0 ∨ env.bind_ret < 0 ∨ env.listen_ret < 0) →
        (main argv incoming env script sig).status = some 1) ∧
      ((start (booted argv incoming srv) env script).1 = Completion.blocked →
        (main argv incoming env script sig).status = sig)) ∧
    SIGINT = 2 ∧ SIGTERM = 15 ∧ SIGINT ≠ 0 ∧ SIGTERM ≠ 0 := by
  refine ⟨?_, ?_, rfl, rfl, by decide, by decide⟩
  · intro e he
    simp [main, he]
  · intro srv hsrv
    have hraised : ∀ what, (start (booted argv incoming srv) env script).1
        = Completion.raised what → (main argv incoming env script sig).status = some 1 := by
      intro what hwhat
      rcases hst : start (booted argv incoming srv) env script with ⟨c, w2⟩
      rw [hst] at hwhat
      simp only at hwhat
      subst hwhat
      simp [main, hsrv, hst]
    refine ⟨?_, hraised, ?_, ?_⟩
    · intro hret
      rcases hst : start (booted argv incoming srv) env script with ⟨c, w2⟩
      rw [hst] at hret
      simp only at hret
      subst hret
      simp [main, hsrv, hst]
    · intro hfail
      obtain ⟨what, hwhat⟩ := start_raises_of_setup_failure (booted argv incoming srv) env script hfail
      exact hraised what hwhat
    · intro hblocked
      rcases hst : start (booted argv incoming srv) env script with ⟨c, w2⟩
      rw [hst] at hblocked
      simp only at hblocked
      subst hblocked
      cases sig with
      | none => simp [main, hsrv, hst]
      | some signum => simp [main, hsrv, hst, signalHandler]

/-- Witness for C8, amended: a run whose bind fails exits with 1, a run stopped from
another thread exits with 0, and a run interrupted by SIGTERM exits with 15. -/
theorem main_exit_status_witness :
    (main ["server"] noData setupBindFails [] none).status = some 1 ∧
    (main ["server"] noData setupOk [⟨true, -1⟩] none).status = some 0 ∧
    (main ["server"] noData setupOk [] (some SIGTERM)).status = some 15 ∧
    (main ["server", "8080", "0"] noData setupOk [] none).status = some 1 := by
  have hcreate : HttpServer.create (portArg ["server"]) (threadsArg ["server"])
      = Except.ok freshWorld.srv := rfl
  have a := ((main_exit_status ["server"] noData setupBindFails [] none).2.1
    freshWorld.srv hcreate).2.2.1 (by decide)
  have b := ((main_exit_status ["server"] noData setupOk [⟨true, -1⟩] none).2.1
    freshWorld.srv hcreate).1 (by rfl)
  have c := ((main_exit_status ["server"] noData setupOk [] (some SIGTERM)).2.1
    freshWorld.srv hcreate).2.2.2 (by rfl)
  have d := (main_exit_status ["server", "8080", "0"] noData setupOk [] none).1
    "workerCount must be >= 1" (by rfl)
  exact ⟨a, b, c, d⟩

/-- C10: evaluation at the failing input. A `start` whose bind fails closes the
listening descriptor 3 and raises while `server_socket_` still holds 3; the destructor
(or `stop`) then closes descriptor 3 a second time, although the server opened it once. -/
theorem failed_bind_then_destroy_closes_twice :
    (start freshWorld setupBindFails []).1 = Completion.raised "Failed to bind socket" ∧
    (start freshWorld setupBindFails []).2.srv.server_socket_ = 3 ∧
    (start freshWorld setupBindFails []).2.net.trace
      = [Call.socket 3, Call.setsockopt 3 0, Call.bind 3 8080 (-1), Call.close 3] ∧
    (destroy (start freshWorld setupBindFails []).2).net.trace
      = [Call.socket 3, Call.setsockopt 3 0, Call.bind 3 8080 (-1), Call.close 3, Call.close 3] ∧
    (destroy (start freshWorld setupBindFails []).2).net.trace.count (Call.socket 3) = 1 ∧
    (destroy (start freshWorld setupBindFails []).2).net.trace.count (Call.close 3) = 2 ∧
    (main ["server"] noData setupBindFails [] none).trace.count (Call.close 3) = 2 := by
  refine ⟨by rfl, by rfl, by rfl, by rfl, by decide, by decide, by decide⟩

end ProgramTheorems
